import Mathlib

/-!
Shallow embedding of `dochelper/__init__.py` (Sensibility/dochelper).

Lines of source code (Python) are modelled as `List Char`; Python exceptions
are modelled with `Except PyErr`.  Python list mutation performed by
`getContiguousComment` on its argument is made explicit: the function returns
the final state of the list alongside its result.
-/

namespace DocHelper

abbrev Str := List Char

/-- Python `str.isspace` characters relevant to `str.strip()` and friends. -/
def isPySpace (c : Char) : Bool :=
  c = ' ' || c = '\t' || c = '\n' || c = '\r' || c = '\x0b' || c = '\x0c'

/-- Python `s.lstrip()` (default whitespace). -/
def lstripWS (s : Str) : Str := s.dropWhile isPySpace

/-- Python `s.rstrip()` (default whitespace). -/
def rstripWS (s : Str) : Str := (s.reverse.dropWhile isPySpace).reverse

/-- Python `s.strip()` (default whitespace). -/
def stripWS (s : Str) : Str := rstripWS (lstripWS s)

/-- Python `s.lstrip(chars)`: drop leading characters belonging to this set. -/
def lstripSet (set : Str) (s : Str) : Str := s.dropWhile (fun c => set.contains c)

/-- Python `s.startswith(p)`. -/
def startsWith : Str → Str → Bool
  | [], _ => true
  | _ :: _, [] => false
  | p :: ps, c :: cs => p = c && startsWith ps cs

/-- Index of the first occurrence of a character, Python `s.index(c)` (as an `Option`). -/
def indexOfChar (c : Char) : Str → Option Nat
  | [] => none
  | d :: t => if d = c then some 0 else (indexOfChar c t).map (· + 1)

/-- Index of the first occurrence of a substring, Python `s.index(sub)` (as an `Option`). -/
def indexOfSub (sub : Str) : Str → Option Nat
  | [] => if startsWith sub [] then some 0 else none
  | s@(_ :: t) => if startsWith sub s then some 0 else (indexOfSub sub t).map (· + 1)

/-- Python `sub in s`. -/
def containsSub (sub s : Str) : Bool := (indexOfSub sub s).isSome

/-- Python `c in s` for a single character. -/
def containsChar (c : Char) (s : Str) : Bool := (indexOfChar c s).isSome

/-- Python `s.index(sub, start)` with a (possibly clamped) start position. -/
def indexOfSubFrom (sub s : Str) (start : Nat) : Option Nat :=
  (indexOfSub sub (s.drop start)).map (· + start)

/-- Python `s.split(sep)` for a one-character separator (always at least one piece). -/
def splitOnChar (sep : Char) : Str → List Str
  | [] => [[]]
  | c :: rest =>
    if c = sep then [] :: splitOnChar sep rest
    else
      match splitOnChar sep rest with
      | p :: ps => (c :: p) :: ps
      | [] => [[c]]

/-- Python `sep.join(xs)` for a one-character separator. -/
def joinWith (sep : Char) : List Str → Str
  | [] => []
  | [x] => x
  | x :: xs => x ++ sep :: joinWith sep xs

/-- Python `s.replace('_', '\\_')` (used to escape LaTeX-special underscores). -/
def escapeUnderscore : Str → Str
  | [] => []
  | c :: t => (if c = '_' then ['\\', '_'] else [c]) ++ escapeUnderscore t

/-- Python `s.replace(c, r)` for a one-character pattern. -/
def replaceCharWith (c : Char) (r : Str) : Str → Str
  | [] => []
  | d :: t => (if d = c then r else [d]) ++ replaceCharWith c r t

/-- Python `s.endswith(c)` for a single character. -/
def endsWithChar (c : Char) (s : Str) : Bool :=
  match s.getLast? with
  | some d => d = c
  | none => false

/-- The Python exceptions raised by the scanner and extractor code. -/
inductive PyErr where
  | eofError (msg : Str)
  | valueError (msg : Str)
  | typeError
  | indexError
  | attributeError
  | outOfFuel
deriving DecidableEq

/-! ## Inline Markup Translator: `processComment` (source lines 20-50) -/

/-- The `sugar` dict: marker character to opening LaTeX markup. -/
def sugar (c : Char) : Option Str :=
  if c = '_' then some "\\textit\x7b".toList
  else if c = '*' then some "\\textbf\x7b".toList
  else if c = '\x60' then some "\\code\x7b".toList
  else none

/-- The `braces` dict: one open/close counter per marker character. -/
structure Braces where
  star : Nat
  und : Nat
  tick : Nat
deriving DecidableEq

def Braces.get (b : Braces) (c : Char) : Nat :=
  if c = '*' then b.star else if c = '_' then b.und else b.tick

def Braces.inc (b : Braces) (c : Char) : Braces :=
  if c = '*' then { b with star := b.star + 1 }
  else if c = '_' then { b with und := b.und + 1 }
  else { b with tick := b.tick + 1 }

def Braces.dec (b : Braces) (c : Char) : Braces :=
  if c = '*' then { b with star := b.star - 1 }
  else if c = '_' then { b with und := b.und - 1 }
  else { b with tick := b.tick - 1 }

def Braces.total (b : Braces) : Nat := b.star + b.und + b.tick

/-- The toggle guard of line 36: `char in sugar and i and comment[i-1] != '\\'`.
`prev` is the previous original character (`none` at position 0, where the
Python truthiness test `i` fails). -/
def pcToggles (prev : Option Char) (c : Char) : Bool :=
  (sugar c).isSome &&
    (match prev with
     | some p => decide (p ≠ '\\')
     | none => false)

/-- The output token one character contributes (lines 36-43). -/
def pcTok (prev : Option Char) (br : Braces) (c : Char) : Str :=
  if pcToggles prev c then
    (if br.get c ≠ 0 then "\x7d".toList else (sugar c).getD [])
  else [c]

/-- The counter update one character causes (lines 37-41). -/
def pcUpd (prev : Option Char) (br : Braces) (c : Char) : Braces :=
  if pcToggles prev c then (if br.get c ≠ 0 then br.dec c else br.inc c) else br

/-- The character loop of `processComment` (lines 35-43): one output token per
input character, together with the final counters. -/
def pcGo (prev : Option Char) (br : Braces) : Str → List Str × Braces
  | [] => ([], br)
  | c :: rest =>
    let r := pcGo (some c) (pcUpd prev br c) rest
    (pcTok prev br c :: r.fst, r.snd)

/-- `processComment` (source lines 20-50): translate inline markup, forcibly
closing any unbalanced markers at the end (the warning print is a diagnostic
side effect, not part of the value). -/
def processComment (comment : Str) : Str :=
  let r := pcGo none ⟨0, 0, 0⟩ comment
  r.fst.foldr (· ++ ·) [] ++ List.replicate r.snd.total '\x7d'

/-! ## Comment Scanner: `getContiguousComment` (source lines 53-91) -/

def triq : Str := "'''".toList
def tridq : Str := "\"\"\"".toList
def hashMark : Str := "#".toList

/-- The character set of Python `lstrip(' \t' + delim[0])`. -/
def stripSetOf (opener : Str) : Str := ' ' :: '\t' :: opener

/-- Line-comment branch (source lines 73-76): consume consecutive lines starting
(after lstrip) with the marker, each captured as `line.lstrip(' \t' + marker)`. -/
def lineCommentScan (marker : Str) : List Str → List Str
  | [] => []
  | l :: rest =>
    if startsWith marker (lstripWS l) then
      lstripSet (stripSetOf marker) l :: lineCommentScan marker rest
    else []

/-- Block-comment branch (source lines 79-87): consume lines until one contains
the closing marker (truncated there), raising EOFError when input is exhausted. -/
def blockCommentScan (set : Str) (closer : Str) : List Str → Except PyErr (List Str)
  | [] => .error (.eofError "EOF encountered while scanning block comment.".toList)
  | l :: rest =>
    match indexOfSub closer l with
    | some i => .ok [lstripSet set (l.take i)]
    | none => (blockCommentScan set closer rest).map (fun t => lstripSet set l :: t)

/-- Post-processing (source line 90): drop blank fragments, escape underscores. -/
def postProcess (frags : List Str) : List Str :=
  (frags.filter (fun x => x ≠ [])).map escapeUnderscore

/-- `getContiguousComment` (source lines 53-91), specialised to the only
registered syntax `Python` with delimiters `[("'''","'''"), ('"""','"""'), ('#',)]`.
The second component is the final state of the caller's list: the block-comment
branch assigns `contents[0] = contents[0].lstrip(' \t' + delim[0])` (line 78),
which mutates the caller's list in place. -/
def getContiguousComment (contents : List Str) :
    Except PyErr (Option (List Str)) × List Str :=
  match contents with
  | [] => (.error .indexError, [])
  | first :: rest =>
    let thisLine := lstripWS first
    if startsWith triq thisLine then
      let set := stripSetOf triq
      let first' := lstripSet set first
      ((blockCommentScan set triq (first' :: rest)).map (fun f => some (postProcess f)),
       first' :: rest)
    else if startsWith tridq thisLine then
      let set := stripSetOf tridq
      let first' := lstripSet set first
      ((blockCommentScan set tridq (first' :: rest)).map (fun f => some (postProcess f)),
       first' :: rest)
    else if startsWith hashMark thisLine then
      (.ok (some (postProcess (lineCommentScan hashMark (first :: rest)))), first :: rest)
    else
      (.ok none, first :: rest)

/-! ## Definition Extractor: `processPythonFunction` (94-173), `processPythonClass` (176-204) -/

/-- Parse one comma-separated argument piece (source lines 113-128).  Tuples and
lists of the Python code are both modelled as `List (Option Str)`; the tuple
branch `(parts[0], None, parts[1])` raises IndexError when `parts` has fewer
than two elements. -/
def parsePythonArg (arg : Str) : Except PyErr (List (Option Str)) :=
  if containsChar ':' arg then
    let name := stripWS ((splitOnChar ':' arg).headD [])
    if containsChar '=' arg then
      let lastParts := splitOnChar '=' ((splitOnChar ':' arg).getD 1 [])
      .ok (some name :: (lastParts.filter (fun p => p ≠ [])).map (fun p => some (stripWS p)))
    else
      .ok [some name, some (stripWS ((splitOnChar ':' arg).getD 1 [])), none]
  else if containsChar '=' arg then
    let parts := ((splitOnChar '=' arg).filter
      (fun p => decide (p ≠ []) && decide (stripWS p ≠ []))).map stripWS
    match parts with
    | p0 :: p1 :: _ => .ok [some p0, none, some p1]
    | _ => .error .indexError
  else
    .ok [some arg, none, none]

/-- Name, argument list and return type of a function header (source lines
103-136).  Mirrors the source exactly: arguments are comma-split only when a
comma occurs between the parentheses, and the return-type search runs over the
already-truncated `funcname`, anchored at the stale negative index `argsEnd`. -/
def funcnameAndArgs (line0 : Str) :
    Except PyErr (Str × List (List (Option Str)) × Option Str) := do
  let funcname0 := lstripWS (line0.drop 4)
  let argsStart ← match indexOfChar '(' funcname0 with
    | some i => Except.ok i
    | none => Except.error (.valueError "substring not found".toList)
  let k ← match indexOfChar ')' funcname0.reverse with
    | some i => Except.ok i
    | none => Except.error (.valueError "substring not found".toList)
  let pe := funcname0.length - k - 1
  let args :=
    if containsChar ',' ((funcname0.drop argsStart).take (pe - argsStart)) then
      ((splitOnChar ',' ((funcname0.drop (argsStart + 1)).take (pe - (argsStart + 1)))).filter
        (fun a => a ≠ [])).map (fun a => escapeUnderscore (stripWS a))
    else []
  let funcname := rstripWS (funcname0.take argsStart)
  let argslist ← args.mapM parsePythonArg
  let returnType :=
    match indexOfSubFrom "->".toList funcname (funcname.length - (k + 1)) with
    | some p => some (rstripWS ((stripWS (funcname.drop (p + 1))).dropLast))
    | none => none
  return (funcname, argslist, returnType)

/-- Leftmost match of the regex `"""|#|'''` (source line 142), as a position. -/
def minOpt : Option Nat → Option Nat → Option Nat
  | none, b => b
  | a, none => a
  | some a, some b => some (min a b)

def identRegexSearch (line : Str) : Option Nat :=
  minOpt (indexOfSub tridq line) (minOpt (indexOfSub hashMark line) (indexOfSub triq line))

/-- Body-span loop (source lines 151-154): count following lines whose prefix
is the established indentation. -/
def spanLoop (indentation : Str) : List Str → Nat
  | [] => 0
  | l :: rest => if startsWith indentation l then 1 + spanLoop indentation rest else 0

/-- Docstring scan, indentation heuristic and span count shared by the function
(lines 138-154) and class (lines 190-202) extractors.  An absent docstring is
the empty sequence; a missing second line raises IndexError (Python indexes
`contents[1]`), and the failed regex search raises AttributeError. -/
def docstringAndSpan (contents : List Str) : Except PyErr (List Str × Nat) := do
  let docstring ← match (getContiguousComment (contents.drop 1)).fst with
    | .error e => Except.error e
    | .ok (some d) => Except.ok d
    | .ok none => Except.ok []
  let line1 ← match contents.get? 1 with
    | some l => Except.ok l
    | none => Except.error PyErr.indexError
  let indentation ← match identRegexSearch line1 with
    | some i => Except.ok (line1.take i)
    | none => Except.error PyErr.attributeError
  let base := 1 + docstring.length
  return (docstring, base + spanLoop indentation (contents.drop base))

/-- Python `'%s' % v` for our optional strings (`None` prints as `None`). -/
def fmtOpt : Option Str → Str
  | some s => s
  | none => "None".toList

/-- Render one argument (source lines 162-167).  Accessing `arg[1]` or `arg[2]`
on a short list raises IndexError. -/
def fmtArg (a : List (Option Str)) : Except PyErr Str := do
  let a0 ← match a.get? 0 with
    | some v => Except.ok v
    | none => Except.error PyErr.indexError
  let out0 := "\\item\x7b\x7d\\identifier\x7b".toList ++ fmtOpt a0 ++ "\x7d".toList
  let a1 ← match a.get? 1 with
    | some v => Except.ok v
    | none => Except.error PyErr.indexError
  let out1 := match a1 with
    | some v => " - \\identifier\x7b".toList ++ v ++ "\x7d".toList
    | none => []
  let a2 ← match a.get? 2 with
    | some v => Except.ok v
    | none => Except.error PyErr.indexError
  let out2 := match a2 with
    | some v => " - \\textit\x7bDefault:\x7d \\identifier\x7b".toList ++ v ++ "\x7d".toList
    | none => []
  return out0 ++ out1 ++ out2

/-- The full result of `processPythonFunction`, exposing the intermediate
values (`argslist`, `returnType`, `docstring`) alongside the returned tuple. -/
structure FuncInfo where
  funcname : Str
  argslist : List (List (Option Str))
  returnType : Option Str
  docstring : List Str
  numLines : Nat
  rendered : Str
deriving DecidableEq

/-- `processPythonFunction` (source lines 94-173), with intermediates. -/
def processPythonFunctionInfo (contents : List Str) : Except PyErr FuncInfo := do
  let line0 ← match contents.head? with
    | some l => Except.ok l
    | none => Except.error PyErr.indexError
  let (funcname, argslist, returnType) ← funcnameAndArgs line0
  let (docstring, numLines) ← docstringAndSpan contents
  let argLines ← argslist.mapM fmtArg
  let output := [processComment (joinWith '\n' docstring)]
    ++ (if argslist ≠ [] then
          ["\\\\\\textbf\x7b\\textit\x7bArguments:\x7d\x7d".toList,
           "\\begin\x7bitemize\x7d".toList] ++ argLines ++ ["\\end\x7bitemize\x7d".toList]
        else [])
    ++ (match returnType with
        | some rt => ["\\textbf\x7b\\textit\x7bReturns:\x7d ".toList ++ rt]
        | none => [])
  return ⟨funcname, argslist, returnType, docstring, numLines, joinWith '\n' output⟩

/-- The tuple actually returned by `processPythonFunction` (source line 173). -/
def processPythonFunction (contents : List Str) : Except PyErr (Str × Str × Nat) :=
  (processPythonFunctionInfo contents).map (fun i => (i.funcname, i.rendered, i.numLines))

/-- `processPythonClass` (source lines 176-204). -/
def processPythonClass (contents : List Str) : Except PyErr (Str × Str × Nat) := do
  let line0 ← match contents.head? with
    | some l => Except.ok l
    | none => Except.error PyErr.indexError
  let clsName0 := lstripWS (line0.drop 6)
  let clsName ← match indexOfChar '(' clsName0 with
    | some i => Except.ok (rstripWS (clsName0.take i))
    | none => Except.error (.valueError
        ("'(' not found in class decl on line '".toList ++ line0 ++ "'".toList))
  let (docstring, numLines) ← docstringAndSpan contents
  return (clsName, processComment (joinWith '\n' docstring), numLines)

/-! ## Module Segmenter: `extractPythonDocumentation` (source lines 215-313) -/

/-- `ASSIGNMENT_PATTERNS['Python']`: anchored match of `[a-zA-Z_]\w*\s*=`
(source line 18).  Because word characters, whitespace and `=` are pairwise
disjoint, the regex match is equivalent to this deterministic scan. -/
def assignMatch (l : Str) : Bool :=
  match l with
  | [] => false
  | c :: rest =>
    (c.isAlpha || c = '_') &&
    (match (rest.dropWhile (fun d => d.isAlphanum || d = '_')).dropWhile isPySpace with
     | '=' :: _ => true
     | _ => false)

/-- Logical-line construction (source lines 232-243): drop blank lines, join
continuation lines (trailing backslash or comma); a dangling `currentLine` at
end of input is discarded. -/
def buildContentLines (cur : Str) : List Str → List Str
  | [] => []
  | l :: rest =>
    if l ≠ [] ∧ stripWS l ≠ [] then
      if endsWithChar '\\' l then buildContentLines (cur ++ ' ' :: l.dropLast) rest
      else if endsWithChar ',' l then buildContentLines (cur ++ ' ' :: l) rest
      else stripWS (cur ++ l) :: buildContentLines [] rest
    else buildContentLines cur rest

/-- Python dict assignment `d[k] = v`: update in place or append. -/
def upsert (k : Str) (v : Str) : List (Str × Str) → List (Str × Str)
  | [] => [(k, v)]
  | (k', v') :: rest => if k' = k then (k, v) :: rest else (k', v') :: upsert k v rest

/-- Python string `<` (lexicographic by code point). -/
def lexLt : Str → Str → Bool
  | [], [] => false
  | [], _ :: _ => true
  | _ :: _, [] => false
  | a :: xs, b :: ys => if a = b then lexLt xs ys else decide (a < b)

def insertSorted (x : Str) : List Str → List Str
  | [] => [x]
  | y :: ys => if lexLt x y then x :: y :: ys else y :: insertSorted x ys

/-- Python `sorted(d)`: the dict's keys in ascending order. -/
def sortedKeys (m : List (Str × Str)) : List Str :=
  (m.map Prod.fst).foldr insertSorted []

/-- Python `d[k]` for a key known to be present (default empty). -/
def lookupD (m : List (Str × Str)) (k : Str) : Str :=
  match m.find? (fun p => p.fst = k) with
  | some p => p.snd
  | none => []

/-- The scanning loop of `extractPythonDocumentation` (source lines 257-283).
`fuel` is an upper bound on the remaining iterations; every iteration advances
`processedLines` by at least one, so `contentLines.length + 1` always
suffices. -/
def extractLoop (contentLines : List Str) :
    Nat → Nat → List (Str × Str) → List (Str × Str) → List (Str × Str) →
    Except PyErr (List (Str × Str) × List (Str × Str) × List (Str × Str))
  | 0, processedLines, constants, functions, classes =>
    if processedLines < contentLines.length then .error .outOfFuel
    else .ok (constants, functions, classes)
  | fuel + 1, processedLines, constants, functions, classes =>
    if processedLines < contentLines.length then
      let tail := contentLines.drop processedLines
      match (getContiguousComment tail).fst with
      | .error e => .error e
      | .ok none =>
        let cur := tail.headD []
        if startsWith "def".toList cur then
          match processPythonFunction tail with
          | .error e => .error e
          | .ok (funcname, docstring, containedLines) =>
            extractLoop contentLines fuel (processedLines + containedLines)
              constants (upsert funcname docstring functions) classes
        else if startsWith "class".toList cur then
          match processPythonClass tail with
          | .error e => .error e
          | .ok (classname, docstring, containedLines) =>
            extractLoop contentLines fuel (processedLines + containedLines)
              constants functions (upsert classname docstring classes)
        else if assignMatch cur then
          extractLoop contentLines fuel (processedLines + 1)
            (upsert (stripWS ((splitOnChar '=' cur).headD [])) [] constants)
            functions classes
        else
          extractLoop contentLines fuel (processedLines + 1) constants functions classes
      | .ok (some comments) =>
        match contentLines.get? (processedLines + comments.length) with
        | none => .error .indexError
        | some peek =>
          if assignMatch peek then
            extractLoop contentLines fuel (processedLines + comments.length + 1)
              (upsert (stripWS ((splitOnChar '=' peek).headD []))
                (joinWith '\n' comments) constants)
              functions classes
          else
            extractLoop contentLines fuel
              (processedLines + (if comments ≠ [] then comments.length else 1))
              constants functions classes
    else .ok (constants, functions, classes)

def itemLine (name : Str) : Str :=
  "\\item\x7b\x7d\\identifier\x7b".toList ++ escapeUnderscore name ++ "\x7d\\\\".toList

def valueLine (v : Str) : Str := '\t' :: v ++ "\\\\".toList

/-- Constants section (source lines 285-293): value line only when truthy. -/
def constantsSection (safeName : Str) (constants : List (Str × Str)) : List Str :=
  if constants ≠ [] then
    ["\\subsubsection\x7bConstants\x7d\\label\x7bsec:py:".toList ++ safeName
       ++ ":constants\x7d".toList,
     "\\begin\x7bitemize\x7d".toList]
    ++ ((sortedKeys constants).map (fun k =>
          itemLine k :: (if lookupD constants k ≠ [] then [valueLine (lookupD constants k)]
                         else []))).flatten
    ++ ["\\end\x7bitemize\x7d".toList]
  else []

/-- Functions section (source lines 295-302). -/
def functionsSection (safeName : Str) (functions : List (Str × Str)) : List Str :=
  if functions ≠ [] then
    ["\\subsubsection\x7bFunctions\x7d\\label\x7bsec:py:".toList ++ safeName
       ++ ":funcs\x7d".toList,
     "\\begin\x7bitemize\x7d".toList]
    ++ ((sortedKeys functions).map (fun k =>
          [itemLine k, valueLine (lookupD functions k)])).flatten
    ++ ["\\end\x7bitemize\x7d".toList]
  else []

/-- Classes section (source lines 304-310). -/
def classesSection (safeName : Str) (classes : List (Str × Str)) : List Str :=
  if classes ≠ [] then
    ["\\subsubsection\x7bClasses\x7d\\label\x7bsec:py:".toList ++ safeName
       ++ ":classes\x7d".toList,
     "\\begin\x7bitemize\x7d".toList]
    ++ ((sortedKeys classes).map (fun k =>
          [itemLine k, valueLine (lookupD classes k)])).flatten
    ++ ["\\end\x7bitemize\x7d".toList]
  else []

/-- The result of `extractPythonDocumentation`, exposing the docstring and the
three dictionaries alongside the returned LaTeX text. -/
structure ModInfo where
  moduleDocstring : List Str
  constants : List (Str × Str)
  functions : List (Str × Str)
  classes : List (Str × Str)
  latex : Str
deriving DecidableEq

/-- `extractPythonDocumentation` (source lines 215-313), with intermediates.
Note line 251 passes `contentLines` itself (not a slice) to the scanner, so the
scanner's in-place mutation of the first line is visible here: the loop runs on
the returned (possibly mutated) list.  Line 252 computes `len(moduleDocstring)`
without a `None` guard, raising TypeError when the module starts with no
comment. -/
def extractPythonDocumentationInfo (moduleName : Str) (contents : Str) :
    Except PyErr ModInfo := do
  let safeName := replaceCharWith '_' "UnDeRsCoRe".toList moduleName
  let latexHead := "\\subsection\x7b".toList ++ escapeUnderscore moduleName
      ++ "\x7d\\label\x7bsec:py:".toList ++ safeName ++ "\x7d".toList
  let contentLines0 := buildContentLines [] (splitOnChar '\n' (stripWS contents))
  let contentLines1 ← match contentLines0 with
    | [] => Except.error PyErr.indexError
    | first :: rest =>
      if startsWith "#!".toList first then Except.ok rest else Except.ok (first :: rest)
  let scanned := getContiguousComment contentLines1
  let contentLines := scanned.snd
  let moduleDocstring ← match scanned.fst with
    | .error e => Except.error e
    | .ok (some md) => Except.ok md
    | .ok none => Except.error PyErr.typeError
  let (constants, functions, classes) ←
    extractLoop contentLines (contentLines.length + 1) moduleDocstring.length [] [] []
  let latex := [latexHead, processComment (joinWith '\n' moduleDocstring)]
    ++ constantsSection safeName constants
    ++ functionsSection safeName functions
    ++ classesSection safeName classes
  return ⟨moduleDocstring, constants, functions, classes, joinWith '\n' latex⟩

/-- The LaTeX string actually returned by `extractPythonDocumentation`. -/
def extractPythonDocumentation (moduleName : Str) (contents : Str) : Except PyErr Str :=
  (extractPythonDocumentationInfo moduleName contents).map ModInfo.latex

deriving instance DecidableEq for Except

/-! ## Claim theorems: concrete evaluations -/

/-- C1: the claim says a module whose lines start with no comment gets an empty
module docstring and a rendered summary.  The code instead computes
`len(moduleDocstring)` on `None` (line 252) and raises TypeError: for the
module `x = 1` extraction fails instead of returning a summary. -/
theorem C1_missing_module_docstring_raises :
    extractPythonDocumentation "m".toList "x = 1".toList = .error .typeError := by
  decide

/-- C2: the claim says the header `def f(a: int = 1, b) -> str:` yields return
type `str`.  The code searches for the return-annotation marker in the
already-truncated function name (line 133 runs after line 110 rebinds
`funcname`), so the returned return type is `None`, never `str`; the name and
the two arguments are still extracted. -/
theorem C2_return_type_is_dropped :
    (processPythonFunctionInfo
        ["def f(a: int = 1, b) -> str:".toList, "\t'''doc'''".toList]).map
      (fun i => (i.funcname, i.returnType, i.argslist)) =
    .ok ("f".toList, none,
      [[some "a".toList, some "int".toList, some "1".toList],
       [some "b".toList, none, none]]) := by
  decide

/-- C3 counterexample: the claim says a header with exactly one parameter and
no comma yields that one argument.  The code builds arguments only when a comma
occurs between the parentheses (line 106), so `def f(a):` yields an empty
argument list instead of `[(a, absent, absent)]`. -/
theorem C3_single_argument_lost :
    (processPythonFunctionInfo ["def f(a):".toList, "\t'''doc'''".toList]).map
      (fun i => i.argslist) = .ok [] := by
  decide

/-- C4 counterexample: for the well-formed block comment spanning lines 0..2
`''' / a / '''`, the scanner returns only the non-blank interior `["a"]`, so
callers consume 1 line — neither the opening-to-closing distance 2 nor the
inclusive span 3 — and the cursor does not advance to the closing-marker
line. -/
theorem C4_blank_fragment_undercount :
    (getContiguousComment ["'''".toList, "a".toList, "'''".toList]).fst =
      .ok (some ["a".toList]) ∧
    ([["a".toList]].flatten.length = 1 ∧ (1 : Nat) ≠ 2 ∧ (1 : Nat) ≠ 3) := by
  decide

/-- C5 counterexample: the claim says a malformed class declaration is skipped
and segmentation continues with the rest of the module.  In the code the
ValueError of `processPythonClass` (line 188) is not caught inside
`extractPythonDocumentation`, so the whole module extraction aborts: the
following function `g` never appears in any summary. -/
theorem C5_malformed_class_aborts_module :
    extractPythonDocumentation "m".toList
        "'''mod'''\nclass C:\ndef g():\n\t'''g doc'''".toList =
      .error (.valueError
        "'(' not found in class decl on line 'class C:'".toList) := by
  decide

/-- C6 counterexample: in the §8 scenario where the module's only content is
`# X marks the spot` and `X = 1`, that comment is consumed as the module
docstring (line 251), and the constant `X` is recorded with an empty
docstring, not with "X marks the spot". -/
theorem C6_lone_comment_constant_empty :
    (extractPythonDocumentationInfo "m".toList "# X marks the spot\nX = 1".toList).map
      (fun i => (i.moduleDocstring, i.constants)) =
    .ok (["X marks the spot".toList], [("X".toList, [])]) := by
  decide

/-- C6 amended: with a module docstring present and already consumed, the
comment immediately preceding `X = 1` does become the constant's docstring;
in the module whose only content is the comment and the assignment, the
comment becomes the module docstring and `X` maps to the empty string. -/
theorem C6_amended_constant_docstring :
    (extractPythonDocumentationInfo "m".toList
        "'''mod'''\n# X marks the spot\nX = 1".toList).map
      (fun i => i.constants) = .ok [("X".toList, "X marks the spot".toList)] ∧
    (extractPythonDocumentationInfo "m".toList "# X marks the spot\nX = 1".toList).map
      (fun i => i.constants) = .ok [("X".toList, [])] := by
  decide

/-- C7 counterexample: the claim says the scanner never mutates the caller's
line sequence.  The block-comment branch executes
`contents[0] = contents[0].lstrip(' \t' + delim[0])` (line 78): after scanning
`["'''a'''"]` the caller's list holds `["a'''"]`, not what was passed in. -/
theorem C7_scanner_mutates_first_line :
    (getContiguousComment ["'''a'''".toList]).snd = ["a'''".toList] ∧
    "a'''".toList ≠ "'''a'''".toList := by
  decide

/-- C8 counterexample: the claim says a marker at position 0 toggles (emitting
opening markup).  The Python guard `and i` (line 36) makes position 0 never
toggle: `processComment "_"` returns `"_"` unchanged, not the opening markup
`\textit{` (which forced closing would have turned into `\textit{}`). -/
theorem C8_position_zero_no_toggle :
    processComment "_".toList = "_".toList ∧
    "_".toList ≠ "\\textit\x7b\x7d".toList := by
  decide

/-! ## Claim theorems: general statements -/

theorem exceptBind_ok {ε α β : Type} (a : α) (f : α → Except ε β) :
    (Except.ok a : Except ε α) >>= f = f a := rfl

theorem exceptBind_error {ε α β : Type} (e : ε) (f : α → Except ε β) :
    (Except.error e : Except ε α) >>= f = Except.error e := rfl

/-- C7 amended: the scanner's only mutation of the caller's line sequence is
the block-comment branch's in-place reassignment of the first line to its
`lstrip(' \t' + opener)` form; in the line-comment and absent cases, and on
every line after the first, the sequence is returned exactly as passed in. -/
theorem C7_amended_mutation_only_first_line (l : Str) (rest : List Str) :
    (getContiguousComment (l :: rest)).snd =
      (if startsWith triq (lstripWS l) = true then lstripSet (stripSetOf triq) l
       else if startsWith tridq (lstripWS l) = true then lstripSet (stripSetOf tridq) l
       else l) :: rest := by
  simp only [getContiguousComment]
  split_ifs <;> simp_all

/-- C5 amended: a class header line with no `(` makes `processPythonClass` fail
with the malformed-class ValueError naming the offending line, and
`extractPythonDocumentation` does not catch it: the whole module's extraction
aborts (the driver catches it per module), so the module's remaining entries do
not appear in any summary. -/
theorem C5_amended_class_error_propagates (l : Str) (rest : List Str)
    (h : indexOfChar '(' (lstripWS (l.drop 6)) = none) :
    processPythonClass (l :: rest) =
      .error (.valueError
        ("'(' not found in class decl on line '".toList ++ l ++ "'".toList)) ∧
    extractPythonDocumentation "m".toList
        "'''mod'''\nclass C:\ndef g():\n\t'''g doc'''".toList =
      .error (.valueError "'(' not found in class decl on line 'class C:'".toList) := by
  refine ⟨?_, by decide⟩
  simp only [processPythonClass, List.head?_cons, exceptBind_ok, h, exceptBind_error]

theorem C5_amended_class_error_propagates_witness :
    processPythonClass ["class C:".toList] =
      .error (.valueError "'(' not found in class decl on line 'class C:'".toList) := by
  have h := (C5_amended_class_error_propagates "class C:".toList [] (by decide)).1
  exact h

/-- C10: an orphaned non-empty comment whose span reaches the end of the
logical lines makes the scanning loop index past the end when peeking for an
assignment (line 278), raising IndexError; in particular the module
`'''mod''' / # trailing` fails with IndexError instead of returning a
summary. -/
theorem C10_orphan_trailing_comment_index_error
    (contentLines : List Str) (pl fuel : Nat) (cs : List Str)
    (constants functions classes : List (Str × Str))
    (h1 : pl < contentLines.length)
    (h2 : (getContiguousComment (contentLines.drop pl)).fst = .ok (some cs))
    (_h3 : cs ≠ [])
    (h4 : pl + cs.length = contentLines.length) :
    extractLoop contentLines (fuel + 1) pl constants functions classes =
      .error .indexError ∧
    extractPythonDocumentation "m".toList "'''mod'''\n# trailing".toList =
      .error .indexError := by
  refine ⟨?_, by decide⟩
  have hget : contentLines.get? (pl + cs.length) = none := by
    rw [h4]
    exact List.get?_eq_none.mpr (le_refl _)
  simp only [extractLoop, if_pos h1, h2, hget]

theorem C10_orphan_trailing_comment_index_error_witness :
    extractLoop ["mod'''".toList, "# trailing".toList] 1 1 [] [] [] =
      .error .indexError :=
  (C10_orphan_trailing_comment_index_error
      ["mod'''".toList, "# trailing".toList] 1 0 ["trailing".toList] [] [] []
      (by decide) (by decide) (by decide) (by decide)).1

/-- The block-comment loop rejects with EOFError when no remaining line
contains the closing marker (source lines 86-87). -/
theorem blockCommentScan_eof (set closer : Str) (ls : List Str)
    (h : ∀ l ∈ ls, indexOfSub closer l = none) :
    blockCommentScan set closer ls =
      .error (.eofError "EOF encountered while scanning block comment.".toList) := by
  induction ls with
  | nil => rfl
  | cons a t ih =>
    have ha := h a (List.mem_cons_self a t)
    simp only [blockCommentScan, ha]
    rw [ih (fun l hl => h l (List.mem_cons_of_mem a hl))]
    rfl

/-- A string starting with `"""` does not start with `'''`. -/
theorem not_triq_of_tridq (s : Str) (h : startsWith tridq s = true) :
    startsWith triq s = false := by
  match s with
  | [] => simp [tridq, startsWith] at h
  | c :: t =>
    have hc : c = '"' := by
      simp [tridq, startsWith] at h
      exact h.1.symm
    subst hc
    simp [triq, startsWith]

/-- C9: when the first scanned line opens a block comment (either delimiter)
and no line through end of input contains the closing marker, the scanner
fails with the unterminated-block-comment EOFError; the failure propagates out
of `extractPythonDocumentation` uncaught (shown on a concrete module). -/
theorem C9_unterminated_block_raises (first : Str) (rest : List Str) (d : Str)
    (hd : d = triq ∨ d = tridq)
    (h1 : startsWith d (lstripWS first) = true)
    (h2 : indexOfSub d (lstripSet (stripSetOf d) first) = none)
    (h3 : ∀ l ∈ rest, indexOfSub d l = none) :
    (getContiguousComment (first :: rest)).fst =
      .error (.eofError "EOF encountered while scanning block comment.".toList) ∧
    extractPythonDocumentation "m".toList "'''oops\nx = 1".toList =
      .error (.eofError "EOF encountered while scanning block comment.".toList) := by
  refine ⟨?_, by decide⟩
  rcases hd with h | h <;> subst h
  · simp only [getContiguousComment, h1, if_true]
    rw [blockCommentScan_eof _ _ _
      (fun l hl => by
        rcases List.mem_cons.mp hl with h' | h'
        · rw [h']; exact h2
        · exact h3 l h')]
    rfl
  · have hfalse : startsWith triq (lstripWS first) = false := not_triq_of_tridq _ h1
    simp only [getContiguousComment, hfalse, h1, if_true, Bool.false_eq_true, if_false]
    rw [blockCommentScan_eof _ _ _
      (fun l hl => by
        rcases List.mem_cons.mp hl with h' | h'
        · rw [h']; exact h2
        · exact h3 l h')]
    rfl

/-- `lstrip` with a fixed character set is idempotent. -/
theorem lstripSet_idem (set s : Str) : lstripSet set (lstripSet set s) = lstripSet set s := by
  induction s with
  | nil => rfl
  | cons a t ih =>
    by_cases h : set.contains a = true
    · simp only [lstripSet, List.dropWhile_cons, h, if_true] at *
      exact ih
    · simp only [lstripSet, List.dropWhile_cons, h, if_false, Bool.false_eq_true]

/-- The block-comment loop on a list whose first closing-marker occurrence is
on the line `cl`: every earlier line is captured stripped, and `cl` is captured
truncated at the marker (source lines 79-85). -/
theorem blockCommentScan_split (set closer : Str) (pre : List Str) (cl : Str)
    (post : List Str) (j : Nat)
    (h3 : ∀ l ∈ pre, indexOfSub closer l = none)
    (h4 : indexOfSub closer cl = some j) :
    blockCommentScan set closer (pre ++ cl :: post) =
      .ok (pre.map (lstripSet set) ++ [lstripSet set (cl.take j)]) := by
  induction pre with
  | nil => simp only [List.nil_append, blockCommentScan, h4, List.map_nil]
  | cons a t ih =>
    have ha := h3 a (List.mem_cons_self a t)
    simp only [List.cons_append, blockCommentScan, ha, List.append_eq]
    rw [ih (fun l hl => h3 l (List.mem_cons_of_mem a hl))]
    rfl

/-- Splitting a list's length between blank and non-blank elements. -/
theorem filter_length_partition (L : List Str) :
    (L.filter (fun x => x ≠ [])).length + (L.filter (fun x => x = [])).length = L.length := by
  induction L with
  | nil => rfl
  | cons a t ih =>
    simp only [List.filter_cons]
    by_cases h : a = []
    · rw [if_neg (by simp [h]), if_pos (by simp [h])]
      simp only [List.length_cons]
      omega
    · rw [if_pos (by simp [h]), if_neg (by simp [h])]
      simp only [List.length_cons]
      omega

/-- C4 amended: for every well-formed block comment — either delimiter, with
the closing marker on the (stripped) opening line or on a later line — the
scanner returns the captured fragments with blank fragments dropped; the
returned fragment count (the number of lines every caller consumes) plus the
number of blank captured fragments equals the inclusive opening-to-closing
line span (1 when the closer sits on the opening line, `pre.length + 2`
otherwise), so consumption reaches past the closing-marker line exactly when
no captured fragment is blank. -/
theorem C4_amended_block_scan (d : Str) (hd : d = triq ∨ d = tridq) (first : Str)
    (h1 : startsWith d (lstripWS first) = true) :
    (∀ rest : List Str, ∀ j : Nat,
      indexOfSub d (lstripSet (stripSetOf d) first) = some j →
      (getContiguousComment (first :: rest)).fst =
        .ok (some (postProcess
          [lstripSet (stripSetOf d) ((lstripSet (stripSetOf d) first).take j)])) ∧
      (postProcess
          [lstripSet (stripSetOf d) ((lstripSet (stripSetOf d) first).take j)]).length +
        ([lstripSet (stripSetOf d) ((lstripSet (stripSetOf d) first).take j)].filter
          (fun x => x = [])).length = 1) ∧
    (∀ pre : List Str, ∀ cl : Str, ∀ post : List Str, ∀ j : Nat,
      indexOfSub d (lstripSet (stripSetOf d) first) = none →
      (∀ l ∈ pre, indexOfSub d l = none) →
      indexOfSub d cl = some j →
      (getContiguousComment (first :: (pre ++ cl :: post))).fst =
        .ok (some (postProcess (lstripSet (stripSetOf d) first ::
          (pre.map (lstripSet (stripSetOf d)) ++
            [lstripSet (stripSetOf d) (cl.take j)])))) ∧
      (postProcess (lstripSet (stripSetOf d) first ::
          (pre.map (lstripSet (stripSetOf d)) ++
            [lstripSet (stripSetOf d) (cl.take j)]))).length +
        ((lstripSet (stripSetOf d) first ::
          (pre.map (lstripSet (stripSetOf d)) ++
            [lstripSet (stripSetOf d) (cl.take j)])).filter
              (fun x => x = [])).length = pre.length + 2) := by
  have hbranch : ∀ R : List Str, (getContiguousComment (first :: R)).fst =
      (blockCommentScan (stripSetOf d) d (lstripSet (stripSetOf d) first :: R)).map
        (fun f => some (postProcess f)) := by
    intro R
    rcases hd with h | h <;> subst h
    · simp only [getContiguousComment, h1, if_true]
    · have hfalse : startsWith triq (lstripWS first) = false := not_triq_of_tridq _ h1
      simp only [getContiguousComment, hfalse, h1, if_true, Bool.false_eq_true, if_false]
  have hppLen : ∀ L : List Str,
      (postProcess L).length = (L.filter (fun x => x ≠ [])).length := by
    intro L
    simp [postProcess]
  constructor
  · intro rest j hj
    constructor
    · rw [hbranch rest]
      simp only [blockCommentScan, hj]
      rfl
    · rw [hppLen]
      exact filter_length_partition
        [lstripSet (stripSetOf d) ((lstripSet (stripSetOf d) first).take j)]
  · intro pre cl post j h2 h3 h4
    constructor
    · rw [hbranch (pre ++ cl :: post)]
      have hall : ∀ l ∈ lstripSet (stripSetOf d) first :: pre, indexOfSub d l = none := by
        intro l hl
        rcases List.mem_cons.mp hl with h' | h'
        · rw [h']
          exact h2
        · exact h3 l h'
      have hs := blockCommentScan_split (stripSetOf d) d
        (lstripSet (stripSetOf d) first :: pre) cl post j hall h4
      simp only [List.cons_append] at hs
      rw [hs]
      simp only [List.map_cons, lstripSet_idem]
      rfl
    · rw [hppLen, filter_length_partition]
      simp [List.length_map]

theorem C4_amended_block_scan_witness :
    (getContiguousComment ("\"\"\"doc\"\"\"".toList :: [])).fst =
      .ok (some ["doc".toList]) ∧
    (getContiguousComment ("'''".toList :: (["a".toList] ++ "'''".toList :: []))).fst =
      .ok (some ["a".toList]) := by
  constructor
  · have h := ((C4_amended_block_scan tridq (Or.inr rfl) "\"\"\"doc\"\"\"".toList
      (by decide)).1 [] 3 (by decide)).1
    rw [h]
    decide
  · have h := ((C4_amended_block_scan triq (Or.inl rfl) "'''".toList (by decide)).2
      ["a".toList] "'''".toList [] 0 (by decide) (by decide) (by decide)).1
    rw [h]
    decide

/-- First occurrence of a character sitting right after a prefix free of it. -/
theorem indexOfChar_append_self (c : Char) (name rest : Str) (h : c ∉ name) :
    indexOfChar c (name ++ c :: rest) = some name.length := by
  induction name with
  | nil => simp [indexOfChar]
  | cons a t ih =>
    have ha : ¬(a = c) := fun e => h (by rw [← e]; exact List.mem_cons_self a t)
    rw [List.cons_append]
    rw [show indexOfChar c (a :: (t ++ c :: rest)) =
        if a = c then some 0 else (indexOfChar c (t ++ c :: rest)).map (· + 1) from rfl]
    rw [if_neg ha, ih (fun m => h (List.mem_cons_of_mem a m))]
    rfl

/-- `dropWhile` keeps a list whose own `dropWhile` is itself, followed by an
element failing the predicate. -/
theorem dropWhile_append_keep (p : Char → Bool) (xs ys : Str) (y : Char)
    (hxs : xs.dropWhile p = xs) (hy : p y = false) :
    (xs ++ y :: ys).dropWhile p = xs ++ y :: ys := by
  cases xs with
  | nil => simp [List.dropWhile_cons, hy]
  | cons a t =>
    have ha : p a = false := by
      by_cases h : p a = true
      · exfalso
        rw [List.dropWhile_cons, if_pos h] at hxs
        have hle := (List.dropWhile_sublist (p := p) (l := t)).length_le
        rw [hxs] at hle
        simp at hle
      · simpa using h
    simp [List.cons_append, List.dropWhile_cons, ha]

/-- C3 amended: for a function header `def <name>(<inner>)<tail>` (with `(` not
in the name, `)` not in the tail and the name already whitespace-stripped), the
extractor's argument list is empty whenever no comma occurs between the
parentheses — in particular for exactly one parameter — and otherwise is the
comma-split of the text between the parentheses, with empty pieces dropped and
each remaining piece stripped, underscore-escaped and parsed into
(name, type|absent, default|absent). -/
theorem C3_amended_comma_gated_args (name inner tail : Str)
    (hn : lstripWS name = name) (h1 : '(' ∉ name) (h2 : ')' ∉ tail) :
    (containsChar ',' inner = false →
      (funcnameAndArgs ("def ".toList ++ (name ++ '(' :: (inner ++ ')' :: tail)))).map
        (fun t => t.2.1) = .ok []) ∧
    (containsChar ',' inner = true →
      (funcnameAndArgs ("def ".toList ++ (name ++ '(' :: (inner ++ ')' :: tail)))).map
        (fun t => t.2.1) =
      (((splitOnChar ',' inner).filter (fun a => a ≠ [])).map
        (fun a => escapeUnderscore (stripWS a))).mapM parsePythonArg) := by
  have hf0 : lstripWS (("def ".toList ++ (name ++ '(' :: (inner ++ ')' :: tail))).drop 4)
      = name ++ '(' :: (inner ++ ')' :: tail) := by
    rw [show (4 : Nat) = "def ".toList.length from rfl, List.drop_left]
    exact dropWhile_append_keep isPySpace name _ '(' hn rfl
  have hidx1 : indexOfChar '(' (name ++ '(' :: (inner ++ ')' :: tail)) = some name.length :=
    indexOfChar_append_self '(' name _ h1
  have hrev : (name ++ '(' :: (inner ++ ')' :: tail)).reverse
      = tail.reverse ++ ')' :: (inner.reverse ++ '(' :: name.reverse) := by
    simp [List.reverse_append, List.reverse_cons, List.append_assoc]
  have hidx2 : indexOfChar ')' ((name ++ '(' :: (inner ++ ')' :: tail)).reverse)
      = some tail.length := by
    rw [hrev, indexOfChar_append_self ')' tail.reverse _
      (fun m => h2 (List.mem_reverse.mp m)), List.length_reverse]
  have hlen : (name ++ '(' :: (inner ++ ')' :: tail)).length
      = name.length + inner.length + tail.length + 2 := by
    simp [List.length_append]
    omega
  have hpe : (name ++ '(' :: (inner ++ ')' :: tail)).length - tail.length - 1
      = name.length + inner.length + 1 := by
    rw [hlen]
    omega
  have hsliceC : ((name ++ '(' :: (inner ++ ')' :: tail)).drop name.length).take
      (name.length + inner.length + 1 - name.length) = '(' :: inner := by
    rw [List.drop_left]
    rw [show name.length + inner.length + 1 - name.length = inner.length + 1 by omega]
    rw [show ('(' :: (inner ++ ')' :: tail)) = ('(' :: inner) ++ ')' :: tail by simp]
    exact List.take_left' (by simp)
  have hcontains : containsChar ',' ('(' :: inner) = containsChar ',' inner := by
    simp [containsChar, indexOfChar]
  have hsliceA : ((name ++ '(' :: (inner ++ ')' :: tail)).drop (name.length + 1)).take
      (name.length + inner.length + 1 - (name.length + 1)) = inner := by
    rw [show name ++ '(' :: (inner ++ ')' :: tail)
        = (name ++ ['(']) ++ (inner ++ ')' :: tail) by simp]
    rw [List.drop_left' (by simp)]
    rw [show name.length + inner.length + 1 - (name.length + 1) = inner.length by omega]
    exact List.take_left' rfl
  constructor <;> intro hc
  · simp only [funcnameAndArgs, hf0, hidx1, hidx2, exceptBind_ok, hpe, hsliceC,
      hcontains, hc, Bool.false_eq_true, if_false]
    rfl
  · simp only [funcnameAndArgs, hf0, hidx1, hidx2, exceptBind_ok, hpe, hsliceC,
      hcontains, hc, if_true, hsliceA]
    cases hm : (((splitOnChar ',' inner).filter (fun a => a ≠ [])).map
        (fun a => escapeUnderscore (stripWS a))).mapM parsePythonArg with
    | ok l => simp [hm, exceptBind_ok]; rfl
    | error e =>
      simp only [hm, exceptBind_error]
      rfl

theorem C3_amended_comma_gated_args_witness :
    (funcnameAndArgs
        ("def ".toList ++ ("f".toList ++ '(' :: ("a".toList ++ ')' :: ":".toList)))).map
      (fun t => t.2.1) = .ok [] :=
  (C3_amended_comma_gated_args "f".toList "a".toList ":".toList
    (by decide) (by decide) (by decide)).1 (by decide)

theorem C9_unterminated_block_raises_witness :
    (getContiguousComment ["'''ab".toList, "cd".toList]).fst =
      .error (.eofError "EOF encountered while scanning block comment.".toList) :=
  (C9_unterminated_block_raises "'''ab".toList ["cd".toList] triq (Or.inl rfl)
    (by decide) (by decide) (by decide)).1

/-! ## C8: toggle-parity machinery for `processComment` -/

/-- The `prev` value after scanning `xs` starting from `prev`. -/
def lastOr (prev : Option Char) (xs : Str) : Option Char :=
  match xs.getLast? with
  | some c => some c
  | none => prev

/-- Number of positions at which the translator toggles marker `m` (the guard
of line 36 holds and the character is `m`). -/
def tCount (m : Char) : Option Char → Str → Nat
  | _, [] => 0
  | prev, c :: rest =>
    (if pcToggles prev c = true ∧ c = m then 1 else 0) + tCount m (some c) rest

theorem pcGo_length (cs : Str) : ∀ prev br, (pcGo prev br cs).fst.length = cs.length := by
  induction cs with
  | nil => intro prev br; rfl
  | cons c t ih => intro prev br; simp [pcGo, ih]

theorem lastOr_cons (prev : Option Char) (c : Char) (t : Str) :
    lastOr prev (c :: t) = lastOr (some c) t := by
  cases t with
  | nil => rfl
  | cons d u => rfl

theorem pcGo_append (xs ys : Str) : ∀ prev br,
    pcGo prev br (xs ++ ys) =
      ((pcGo prev br xs).fst ++ (pcGo (lastOr prev xs) (pcGo prev br xs).snd ys).fst,
        (pcGo (lastOr prev xs) (pcGo prev br xs).snd ys).snd) := by
  induction xs with
  | nil => intro prev br; simp [pcGo, lastOr]
  | cons c t ih =>
    intro prev br
    simp only [List.cons_append, pcGo, List.append_eq]
    rw [ih (some c) (pcUpd prev br c)]
    simp [lastOr_cons]

theorem Braces_get_mk_zero (m : Char) : (Braces.mk 0 0 0).get m = 0 := by
  simp only [Braces.get]
  split_ifs <;> rfl

theorem Braces_get_inc_self (br : Braces) (c : Char) :
    (br.inc c).get c = br.get c + 1 := by
  simp only [Braces.get, Braces.inc]
  split_ifs <;> rfl

theorem Braces_get_dec_self (br : Braces) (c : Char) :
    (br.dec c).get c = br.get c - 1 := by
  simp only [Braces.get, Braces.dec]
  split_ifs <;> rfl

/-- Toggling one marker leaves the counter of a different marker unchanged. -/
theorem Braces_get_upd_ne (br : Braces) (c m : Char)
    (hm : m = '_' ∨ m = '*' ∨ m = '\x60') (hc : (sugar c).isSome = true) (hne : c ≠ m) :
    (br.inc c).get m = br.get m ∧ (br.dec c).get m = br.get m := by
  have hc' : c = '_' ∨ c = '*' ∨ c = '\x60' := by
    by_contra h
    push_neg at h
    simp [sugar, h.1, h.2.1, h.2.2] at hc
  rcases hm with rfl | rfl | rfl <;> rcases hc' with rfl | rfl | rfl <;>
    first
      | exact absurd rfl hne
      | (constructor <;> simp [Braces.get, Braces.inc, Braces.dec])

/-- Counter invariant: starting from a counter at most 1, the counter of `m`
after the scan equals the parity of its starting value plus the number of
toggles of `m` consumed. -/
theorem pcGo_state_parity (m : Char) (hm : m = '_' ∨ m = '*' ∨ m = '\x60') (cs : Str) :
    ∀ prev br, br.get m ≤ 1 →
      (pcGo prev br cs).snd.get m = (br.get m + tCount m prev cs) % 2 := by
  induction cs with
  | nil =>
    intro prev br h
    simp only [pcGo, tCount]
    omega
  | cons c t ih =>
    intro prev br h
    simp only [pcGo, tCount]
    by_cases ht : pcToggles prev c = true
    · by_cases hcm : c = m
      · subst hcm
        by_cases hz : br.get c = 0
        · have hupd : pcUpd prev br c = br.inc c := by simp [pcUpd, ht, hz]
          have hg : (br.inc c).get c = br.get c + 1 := Braces_get_inc_self br c
          rw [hupd, ih (some c) (br.inc c) (by rw [hg, hz])]
          rw [hg, hz]
          rw [if_pos ⟨ht, rfl⟩]
          omega
        · have hupd : pcUpd prev br c = br.dec c := by simp [pcUpd, ht, hz]
          have hg : (br.dec c).get c = br.get c - 1 := Braces_get_dec_self br c
          have h1 : br.get c = 1 := by omega
          rw [hupd, ih (some c) (br.dec c) (by rw [hg, h1]; omega)]
          rw [hg, h1]
          rw [if_pos ⟨ht, rfl⟩]
          omega
      · have hs : (sugar c).isSome = true := by
          simp only [pcToggles, Bool.and_eq_true] at ht
          exact ht.1
        have hupd : (pcUpd prev br c).get m = br.get m := by
          simp only [pcUpd, ht, if_true]
          by_cases hz : br.get c ≠ 0
          · rw [if_pos hz]
            exact (Braces_get_upd_ne br c m hm hs hcm).2
          · rw [if_neg hz]
            exact (Braces_get_upd_ne br c m hm hs hcm).1
        rw [ih (some c) (pcUpd prev br c) (by rw [hupd]; exact h)]
        rw [hupd, if_neg (fun hand => hcm hand.2)]
        omega
    · have hupd : pcUpd prev br c = br := by simp [pcUpd, ht]
      rw [hupd, ih (some c) br h]
      rw [if_neg (fun hand => ht hand.1)]
      omega

/-- C8 amended: at every position `i ≥ 1` holding a toggle marker whose
preceding character is not the escape character, the translator toggles: the
emitted token is the opening markup when the number of prior toggles of that
marker is even (counter zero) and the closing brace otherwise.  (Position 0
never toggles, per the counterexample.) -/
theorem C8_amended_toggle_parity (pre post : Str) (m p : Char)
    (hm : m = '_' ∨ m = '*' ∨ m = '\x60')
    (hlast : pre.getLast? = some p) (hp : p ≠ '\\') :
    (pcGo none ⟨0, 0, 0⟩ (pre ++ m :: post)).fst.get? pre.length =
      some (if tCount m none pre % 2 = 0 then (sugar m).getD [] else "\x7d".toList) := by
  rw [pcGo_append pre (m :: post) none ⟨0, 0, 0⟩]
  have hA : (pcGo none ⟨0, 0, 0⟩ pre).fst.length = pre.length := pcGo_length pre none _
  rw [show lastOr none pre = some p by simp [lastOr, hlast]]
  rw [List.get?_append_right (by rw [hA])]
  rw [hA, Nat.sub_self]
  simp only [pcGo]
  have htog : pcToggles (some p) m = true := by
    have hs : (sugar m).isSome = true := by
      rcases hm with rfl | rfl | rfl <;> rfl
    simp [pcToggles, hs, hp]
  have hpar : (pcGo none ⟨0, 0, 0⟩ pre).snd.get m = tCount m none pre % 2 := by
    have := pcGo_state_parity m hm pre none ⟨0, 0, 0⟩ (by rw [Braces_get_mk_zero]; omega)
    rwa [Braces_get_mk_zero, Nat.zero_add] at this
  simp only [List.get?_cons_zero, pcTok, htog, if_true, hpar]
  by_cases he : tCount m none pre % 2 = 0
  · rw [if_neg (by omega), if_pos he]
  · rw [if_pos (by omega), if_neg he]

theorem C8_amended_toggle_parity_witness :
    (pcGo none ⟨0, 0, 0⟩ ("a".toList ++ '_' :: "b".toList)).fst.get? "a".toList.length =
      some "\\textit\x7b".toList := by
  have h := C8_amended_toggle_parity "a".toList "b".toList '_' 'a'
    (Or.inl rfl) (by decide) (by decide)
  rw [h]
  decide

end DocHelper
